import Mathlib

/-!
Shallow embedding of the rsys-cli real-time monitoring core:
`src/cmd/graph/events.rs`, `src/cmd/graph/cpu.rs` and
`src/cmd/show/common/widget.rs`.

`f64` readings and instants are modelled as values of an arbitrary linearly
ordered commutative ring `α` (exact arithmetic: ℚ is the intended instance,
and ℤ is used when evaluating on concrete inputs); the code uses only
addition, subtraction, `min`/`max` and comparisons on them.  The two producer
threads and the render loop are modelled as pure functions over the finite
prefix of reads/sends/events they process.  The graph `common` module
(`DataSeries`, `Monitor`) is not among the sources; those two types are
modelled from the specification (sections 3, 4.1 and 4.2), with a doc comment
marking each such definition.
-/

namespace RsysCli

/-- Type `Event<I>` from events.rs: tagged union of a forwarded key press and a
periodic timer tick. -/
inductive Event (I : Type) where
  | Input (i : I)
  | Tick
deriving DecidableEq

/-- The input-reader thread of `Events::with_config` (events.rs lines 52-66),
with every channel send succeeding: `reads` is the stream of `stdin.keys()`
results (`none` for an `Err` item, which the `if let Ok` skips); the result is
the list of events the thread sends, in order.  The thread sends each key and
then returns if that key equals `exit_key`. -/
def inputThread {K : Type} [DecidableEq K] (exit_key : K) : List (Option K) → List (Event K)
  | [] => []
  | none :: rest => inputThread exit_key rest
  | some k :: rest =>
      Event.Input k :: (if k = exit_key then [] else inputThread exit_key rest)

/-- The input-reader thread as claim C4 words it: it forwards every
successfully read key and performs no exit-key interpretation of its own. -/
def inputThreadOfClaim {K : Type} (reads : List (Option K)) : List (Event K) :=
  (reads.filterMap id).map Event.Input

variable {α : Type} [LinearOrderedCommRing α]

/-- The ticker thread of `Events::with_config` (events.rs lines 67-74): an
unbounded loop that sends `Tick`, breaking silently if the send fails, and
then sleeps for `tick_rate`.  `sendOk i` says whether the i-th send succeeds
(consumer still alive), `fuel` bounds the observed prefix, `i` is the index of
the next send and `t` the instant at which it would happen; the result is the
list of instants, measured from thread start, at which a `Tick` was sent. -/
def tickerThread (tick_rate : α) (sendOk : Nat → Bool) : Nat → Nat → α → List α
  | 0, _, _ => []
  | fuel + 1, i, t =>
      if sendOk i then t :: tickerThread tick_rate sendOk fuel (i + 1) (t + tick_rate)
      else []

/-- The ticker thread as claim C5 words it: every iteration first sleeps for
the tick interval and only then sends `Tick`. -/
def tickerThreadOfClaim (tick_rate : α) (sendOk : Nat → Bool) : Nat → Nat → α → List α
  | 0, _, _ => []
  | fuel + 1, i, t =>
      if sendOk i then
        (t + tick_rate) :: tickerThreadOfClaim tick_rate sendOk fuel (i + 1) (t + tick_rate)
      else []

/-- One event observed by `single_widget_loop`: a key press, or a tick paired
with the result `widget.update()` returns when handling it (the widget is
external state, reaching the loop only through this result). -/
inductive LoopEvent (K : Type) where
  | input (k : K)
  | tick (updateResult : Except String Unit)

/-- The observable outcome of running `single_widget_loop` over a finite
prefix of events: the overlay passed to each draw in order, the pending
overlay at the end, and whether the `break` on the exit key was reached. -/
structure LoopTrace where
  draws : List (Option String)
  err_msg : Option String
  terminated : Bool
deriving DecidableEq

/-- Function `single_widget_loop` (widget.rs lines 73-102) over a finite prefix of
events.  Each iteration draws the widget with the pending `err_msg` overlay
(if any) and then blocks on `events.next()`; an `Input` equal to the exit key
breaks the loop, any other `Input` is ignored, and a `Tick` runs
`widget.update()`, storing the error message when it fails.  An exhausted
event list models the loop blocked inside `events.next()` after its draw. -/
def single_widget_loop {K : Type} [DecidableEq K] (exit_key : K) (err_msg : Option String) :
    List (LoopEvent K) → LoopTrace
  | [] => ⟨[err_msg], err_msg, false⟩
  | LoopEvent.input k :: rest =>
      if k = exit_key then ⟨[err_msg], err_msg, true⟩
      else
        let t := single_widget_loop exit_key err_msg rest
        ⟨err_msg :: t.draws, t.err_msg, t.terminated⟩
  | LoopEvent.tick r :: rest =>
      let e :=
        match r with
        | Except.error e => some e
        | Except.ok _ => err_msg
      let t := single_widget_loop exit_key e rest
      ⟨err_msg :: t.draws, t.err_msg, t.terminated⟩

/-- Modelled from the spec: `DataSeries` (the SlidingWindowSeries of section
4.1) lives in the graph `common` module, which is not among the sources.  A
time-ordered sample buffer, oldest sample first; each sample is a
`(time, value)` pair. -/
structure DataSeries (α : Type) where
  samples : List (α × α)
deriving DecidableEq

/-- Constructor `DataSeries::new`. -/
def DataSeries.new : DataSeries α := ⟨[]⟩

/-- Modelled from the spec: `add(time, value)` appends a sample at the end. -/
def DataSeries.add (d : DataSeries α) (time value : α) : DataSeries α :=
  ⟨d.samples ++ [(time, value)]⟩

/-- Modelled from the spec: `pop()` removes and returns the earliest sample,
failing on an empty series. -/
def DataSeries.pop (d : DataSeries α) : Option ((α × α) × DataSeries α) :=
  match d.samples with
  | [] => none
  | p :: rest => some (p, ⟨rest⟩)

/-- Modelled from the spec: `pop()` with its result discarded — the
no-op-on-empty reading of `pop_oldest`, as the non-reference series use it in
`CpuMonitor::update`. -/
def DataSeries.popDiscard (d : DataSeries α) : DataSeries α :=
  match d.pop with
  | none => d
  | some (_, d1) => d1

/-- Modelled from the spec: `first()` peeks the earliest sample without
removing it. -/
def DataSeries.first (d : DataSeries α) : Option (α × α) :=
  match d.samples with
  | [] => none
  | p :: _ => some p

/-- Modelled from the spec: the graph `Monitor` (sections 3 and 4.2) is not
among the sources.  It owns the fixed-width x-window `(x_offset,
x_offset + x_window_width)`, the autoscaling y-range `(y_min, y_max)` and the
accumulated elapsed-time clock fed by `add_time`. -/
structure Monitor (α : Type) where
  x_offset : α
  x_window_width : α
  y_min : α
  y_max : α
  elapsed_time : α
deriving DecidableEq

/-- Modelled from the spec: `add_time(delta)` accumulates the wall-clock time
since the previous tick. -/
def Monitor.add_time (m : Monitor α) (delta : α) : Monitor α :=
  { m with elapsed_time := m.elapsed_time + delta }

/-- Modelled from the spec: `set_if_y_max(value)` widens the upper y-bound,
never narrowing it. -/
def Monitor.set_if_y_max (m : Monitor α) (value : α) : Monitor α :=
  { m with y_max := max m.y_max value }

/-- Modelled from the spec: `set_if_y_min(value)` widens the lower y-bound,
never narrowing it. -/
def Monitor.set_if_y_min (m : Monitor α) (value : α) : Monitor α :=
  { m with y_min := min m.y_min value }

/-- Modelled from the spec: `time()` reads the accumulated elapsed clock. -/
def Monitor.time (m : Monitor α) : α := m.elapsed_time

/-- Modelled from the spec: `max_x()` is the right bound of the visible
x-span. -/
def Monitor.max_x (m : Monitor α) : α := m.x_offset + m.x_window_width

/-- Modelled from the spec: `inc_x_axis(n)` advances the x-offset by `n`,
keeping the window width unchanged. -/
def Monitor.inc_x_axis (m : Monitor α) (n : α) : Monitor α :=
  { m with x_offset := m.x_offset + n }

/-- Struct `CoreStat` from cpu.rs (lines 24-29): per-core label, data series and the
last frequency read into `core.cur_freq`; the color and the OS core handle do
not matter here. -/
structure CoreStat (α : Type) where
  name : String
  data : DataSeries α
  cur_freq : α
deriving DecidableEq

/-- Function `CoreStat::update` (cpu.rs lines 40-45): the external `core.update()` read
is the `read` argument; on success store the frequency and return it, on
failure return the error tagged with the core's name. -/
def CoreStat.update (c : CoreStat α) (read : Except String α) :
    Except String (α × CoreStat α) :=
  match read with
  | Except.error e =>
      Except.error ("Failed to update core " ++ c.name ++ " frequency - " ++ e)
  | Except.ok f => Except.ok (f, { c with cur_freq := f })

/-- Function `CoreStat::add_current` (cpu.rs lines 47-49): append `(time, cur_freq)` to
the core's series. -/
def CoreStat.add_current (c : CoreStat α) (time : α) : CoreStat α :=
  { c with data := c.data.add time c.cur_freq }

/-- The per-core loop of `CpuMonitor::update` (cpu.rs lines 68-74): for each
core run `core.update().unwrap()` — `none` models the panic of `unwrap` on a
failed read (and a missing read result) — then append `(elapsed, cur_freq)`
to the core's series and widen both y-bounds with `freq + 100000`. -/
def updateCores (elapsed : α) : List (CoreStat α) → List (Except String α) → Monitor α →
    Option (List (CoreStat α) × Monitor α)
  | [], _, m => some ([], m)
  | _ :: _, [], _ => none
  | c :: cs, r :: rs, m =>
      match c.update r with
      | Except.error _ => none
      | Except.ok (freq, c1) =>
          let c2 := c1.add_current elapsed
          let m1 := (m.set_if_y_max (freq + 100000)).set_if_y_min (freq + 100000)
          match updateCores elapsed cs rs m1 with
          | none => none
          | some (cs1, m2) => some (c2 :: cs1, m2)

/-- The scroll branch of `CpuMonitor::update` (cpu.rs lines 79-88): pop the
oldest sample of the reference series `stats[0]` (`none` models a panic on an
empty stats vector or a failing pop), advance the x-axis by the time gap from
the removed sample to the new earliest one when it exists, and pop one oldest
sample from every other series, discarding the result. -/
def scrollStep : List (CoreStat α) → Monitor α → Option (List (CoreStat α) × Monitor α)
  | [], _ => none
  | s0 :: rest, m =>
      match s0.data.pop with
      | none => none
      | some (removed, d0) =>
          let m1 :=
            match d0.first with
            | some point => m.inc_x_axis (point.1 - removed.1)
            | none => m
          some ({ s0 with data := d0 } ::
                  rest.map (fun c => { c with data := c.data.popDiscard }), m1)

/-- Struct `CpuMonitor` from cpu.rs (lines 52-57): the per-core stats plus the shared
`Monitor`.  The two `Instant` clocks are external; each update receives the
seconds elapsed since widget start and since the previous run. -/
structure CpuMonitor (α : Type) where
  stats : List (CoreStat α)
  m : Monitor α
deriving DecidableEq

/-- Function `CpuMonitor::update` (cpu.rs lines 60-89): accumulate the tick time, run
the per-core read/append/autoscale loop, and scroll the window once the
accumulated time passes the right x-bound.  `none` models the panics
(`unwrap` on a failed read, indexing an empty stats vector). -/
def CpuMonitor.update (s : CpuMonitor α) (elapsed dt : α) (reads : List (Except String α)) :
    Option (CpuMonitor α) :=
  let m1 := s.m.add_time dt
  match updateCores elapsed s.stats reads m1 with
  | none => none
  | some (stats1, m2) =>
      if m2.max_x < m2.time then
        match scrollStep stats1 m2 with
        | none => none
        | some (stats2, m3) => some ⟨stats2, m3⟩
      else some ⟨stats1, m2⟩

/-- A sequence of update ticks: each entry carries the two clock readings and
the per-core read results of one tick; `none` as soon as one update panics. -/
def runUpdates (s : CpuMonitor α) : List (α × α × List (Except String α)) →
    Option (CpuMonitor α)
  | [] => some s
  | (elapsed, dt, reads) :: ticks =>
      match s.update elapsed dt reads with
      | none => none
      | some s1 => runUpdates s1 ticks

/-- Sample counts of the series of a stats vector, in order. -/
def statsLengths (stats : List (CoreStat α)) : List Nat :=
  stats.map (fun c => c.data.samples.length)

/-- All entries of a list of lengths agree. -/
def allEqual (l : List Nat) : Prop := ∀ a ∈ l, ∀ b ∈ l, a = b

instance allEqual.decidable (l : List Nat) : Decidable (allEqual l) :=
  inferInstanceAs (Decidable (∀ a ∈ l, ∀ b ∈ l, a = b))

/-- Fixture: a one-core widget state over ℤ. -/
def exampleCpu : CpuMonitor ℤ := ⟨[⟨"cpu0", ⟨[]⟩, 0⟩], ⟨0, 30, 100, 0, 0⟩⟩

/-- Fixture: `exampleCpu` after one update tick with reading 5 at elapsed
time 1 and tick delta 1. -/
def exampleCpu1 : CpuMonitor ℤ := ⟨[⟨"cpu0", ⟨[(1, 5)]⟩, 5⟩], ⟨0, 30, 100, 100005, 1⟩⟩

/-- Fixture: two cores with equal-length two-sample series. -/
def exampleStats : List (CoreStat ℤ) :=
  [⟨"cpu0", ⟨[(0, 1), (1, 2)]⟩, 2⟩, ⟨"cpu1", ⟨[(0, 3), (1, 4)]⟩, 4⟩]

/-- Fixture: `exampleStats` after one scroll step. -/
def exampleStatsScrolled : List (CoreStat ℤ) :=
  [⟨"cpu0", ⟨[(1, 2)]⟩, 2⟩, ⟨"cpu1", ⟨[(1, 4)]⟩, 4⟩]

/-- Fixture: a monitor whose elapsed clock has passed the right window bound. -/
def exampleMonitor : Monitor ℤ := ⟨0, 30, 0, 10, 31⟩

/-- The first draw of any loop run shows the overlay pending at entry. -/
lemma single_widget_loop_draws_head {K : Type} [DecidableEq K] (exit_key : K)
    (err_msg : Option String) (evs : List (LoopEvent K)) :
    (single_widget_loop exit_key err_msg evs).draws.head? = some err_msg := by
  cases evs with
  | nil => rfl
  | cons ev rest =>
      cases ev with
      | input k =>
          by_cases hk : k = exit_key
          · simp [single_widget_loop, hk]
          · simp [single_widget_loop, hk]
      | tick r => cases r <;> simp [single_widget_loop]

/-- The per-core loop only widens the y-range and leaves the x-axis and the
elapsed clock untouched. -/
lemma updateCores_monitor (elapsed : α) (cs : List (CoreStat α)) :
    ∀ (rs : List (Except String α)) (m : Monitor α) (cs1 : List (CoreStat α)) (m1 : Monitor α),
      updateCores elapsed cs rs m = some (cs1, m1) →
      m1.y_min ≤ m.y_min ∧ m.y_max ≤ m1.y_max ∧ m1.x_offset = m.x_offset ∧
        m1.x_window_width = m.x_window_width ∧ m1.elapsed_time = m.elapsed_time := by
  induction cs with
  | nil =>
      intro rs m cs1 m1 h
      simp only [updateCores, Option.some.injEq, Prod.mk.injEq] at h
      obtain ⟨rfl, rfl⟩ := h
      exact ⟨le_refl _, le_refl _, rfl, rfl, rfl⟩
  | cons c cs ih =>
      intro rs m cs1 m1 h
      cases rs with
      | nil => simp [updateCores] at h
      | cons r rs =>
          cases r with
          | error e => simp [updateCores, CoreStat.update] at h
          | ok f =>
              rw [updateCores] at h
              simp only [CoreStat.update] at h
              cases hrec : updateCores elapsed cs rs
                  ((m.set_if_y_max (f + 100000)).set_if_y_min (f + 100000)) with
              | none => rw [hrec] at h; exact absurd h (by simp)
              | some p =>
                  obtain ⟨cs2, m2⟩ := p
                  rw [hrec] at h
                  simp only [Option.some.injEq, Prod.mk.injEq] at h
                  obtain ⟨-, hm1⟩ := h
                  rw [← hm1]
                  have hm := ih rs _ cs2 _ hrec
                  simp only [Monitor.set_if_y_max, Monitor.set_if_y_min] at hm
                  exact ⟨le_trans hm.1 (min_le_left _ _),
                    le_trans (le_max_left _ _) hm.2.1, hm.2.2.1, hm.2.2.2.1, hm.2.2.2.2⟩

/-- The per-core loop appends exactly one sample to every series. -/
lemma updateCores_lengths (elapsed : α) (cs : List (CoreStat α)) :
    ∀ (rs : List (Except String α)) (m : Monitor α) (cs1 : List (CoreStat α)) (m1 : Monitor α),
      updateCores elapsed cs rs m = some (cs1, m1) →
      statsLengths cs1 = (statsLengths cs).map (fun n => n + 1) := by
  induction cs with
  | nil =>
      intro rs m cs1 m1 h
      simp only [updateCores, Option.some.injEq, Prod.mk.injEq] at h
      obtain ⟨rfl, rfl⟩ := h
      rfl
  | cons c cs ih =>
      intro rs m cs1 m1 h
      cases rs with
      | nil => simp [updateCores] at h
      | cons r rs =>
          cases r with
          | error e => simp [updateCores, CoreStat.update] at h
          | ok f =>
              rw [updateCores] at h
              simp only [CoreStat.update] at h
              cases hrec : updateCores elapsed cs rs
                  ((m.set_if_y_max (f + 100000)).set_if_y_min (f + 100000)) with
              | none => rw [hrec] at h; exact absurd h (by simp)
              | some p =>
                  obtain ⟨cs2, m2⟩ := p
                  rw [hrec] at h
                  simp only [Option.some.injEq, Prod.mk.injEq] at h
                  obtain ⟨h1, -⟩ := h
                  subst h1
                  have := ih rs _ cs2 m2 hrec
                  simp [statsLengths, CoreStat.add_current, DataSeries.add] at this ⊢
                  exact this

/-- Successful `pop` splits the sample list at its head. -/
lemma pop_samples {β : Type} (d : DataSeries β) (p : β × β) (d1 : DataSeries β)
    (h : d.pop = some (p, d1)) : d.samples = p :: d1.samples := by
  cases hd : d.samples with
  | nil => simp [DataSeries.pop, hd] at h
  | cons q tl =>
      simp only [DataSeries.pop, hd, Option.some.injEq, Prod.mk.injEq] at h
      obtain ⟨rfl, rfl⟩ := h
      rfl

/-- Discarded pop drops one sample, and nothing from an empty series. -/
lemma popDiscard_length {β : Type} (d : DataSeries β) :
    d.popDiscard.samples.length = d.samples.length - 1 := by
  cases hd : d.samples with
  | nil => simp [DataSeries.popDiscard, DataSeries.pop, hd]
  | cons p tl => simp [DataSeries.popDiscard, DataSeries.pop, hd]

/-- A scroll step leaves the whole y-range, the window width and the elapsed
clock unchanged; only the x-offset may move. -/
lemma scrollStep_monitor (stats : List (CoreStat α)) (m : Monitor α)
    (out : List (CoreStat α) × Monitor α) (h : scrollStep stats m = some out) :
    out.2.y_min = m.y_min ∧ out.2.y_max = m.y_max ∧
      out.2.x_window_width = m.x_window_width ∧ out.2.elapsed_time = m.elapsed_time := by
  cases stats with
  | nil => simp [scrollStep] at h
  | cons s0 rest =>
      rw [scrollStep] at h
      cases hp : s0.data.pop with
      | none => rw [hp] at h; exact absurd h (by simp)
      | some pr =>
          obtain ⟨removed, d0⟩ := pr
          simp only [hp] at h
          cases hf : d0.first with
          | none =>
              simp only [hf, Option.some.injEq] at h
              rw [← h]
              exact ⟨rfl, rfl, rfl, rfl⟩
          | some point =>
              simp only [hf, Option.some.injEq] at h
              rw [← h]
              simp [Monitor.inc_x_axis]

/-- A scroll step removes exactly one sample from the reference series and
one (when present) from every other series. -/
lemma scrollStep_lengths (stats : List (CoreStat α)) (m : Monitor α)
    (out : List (CoreStat α) × Monitor α) (h : scrollStep stats m = some out) :
    statsLengths out.1 = (statsLengths stats).map (fun n => n - 1) := by
  cases stats with
  | nil => simp [scrollStep] at h
  | cons s0 rest =>
      rw [scrollStep] at h
      cases hp : s0.data.pop with
      | none => rw [hp] at h; exact absurd h (by simp)
      | some pr =>
          obtain ⟨removed, d0⟩ := pr
          simp only [hp] at h
          have hs := pop_samples s0.data removed d0 hp
          have hout : out.1 = { s0 with data := d0 } ::
              rest.map (fun c => { c with data := c.data.popDiscard }) := by
            cases hf : d0.first with
            | none => simp only [hf, Option.some.injEq] at h; rw [← h]
            | some point => simp only [hf, Option.some.injEq] at h; rw [← h]
          rw [hout]
          simp [statsLengths, hs, popDiscard_length, List.map_map, Function.comp]

/-- Mapping a function over an all-equal list keeps it all-equal. -/
lemma allEqual_map (l : List Nat) (f : Nat → Nat) (h : allEqual l) : allEqual (l.map f) := by
  intro a ha b hb
  simp only [List.mem_map] at ha hb
  obtain ⟨x, hx, rfl⟩ := ha
  obtain ⟨y, hy, rfl⟩ := hb
  rw [h x hx y hy]

/-- One successful `CpuMonitor::update` only widens the y-range and never
changes the window width. -/
lemma update_monitor (s : CpuMonitor α) (elapsed dt : α) (reads : List (Except String α))
    (s1 : CpuMonitor α) (h : s.update elapsed dt reads = some s1) :
    s1.m.y_min ≤ s.m.y_min ∧ s.m.y_max ≤ s1.m.y_max ∧
      s1.m.x_window_width = s.m.x_window_width := by
  simp only [CpuMonitor.update] at h
  cases hu : updateCores elapsed s.stats reads (s.m.add_time dt) with
  | none => rw [hu] at h; exact absurd h (by simp)
  | some p =>
      obtain ⟨stats1, m2⟩ := p
      simp only [hu] at h
      have h2 := updateCores_monitor elapsed s.stats reads (s.m.add_time dt) stats1 m2 hu
      simp only [Monitor.add_time] at h2
      by_cases hscroll : m2.max_x < m2.time
      · rw [if_pos hscroll] at h
        cases hsc : scrollStep stats1 m2 with
        | none => rw [hsc] at h; exact absurd h (by simp)
        | some out =>
            obtain ⟨stats2, m3⟩ := out
            rw [hsc] at h
            simp only [Option.some.injEq] at h
            have h3 := scrollStep_monitor stats1 m2 (stats2, m3) hsc
            rw [← h]
            exact ⟨h3.1.trans_le h2.1, h2.2.1.trans_eq h3.2.1.symm,
              h3.2.2.1.trans h2.2.2.2.1⟩
      · rw [if_neg hscroll] at h
        simp only [Option.some.injEq] at h
        rw [← h]
        exact ⟨h2.1, h2.2.1, h2.2.2.2.1⟩

/-- Across any successful run of update ticks the y-range only widens and the
window width is constant. -/
lemma runUpdates_monitor (ticks : List (α × α × List (Except String α))) :
    ∀ s s1 : CpuMonitor α, runUpdates s ticks = some s1 →
      s1.m.y_min ≤ s.m.y_min ∧ s.m.y_max ≤ s1.m.y_max ∧
        s1.m.x_window_width = s.m.x_window_width := by
  induction ticks with
  | nil =>
      intro s s1 h
      simp only [runUpdates, Option.some.injEq] at h
      rw [← h]
      exact ⟨le_refl _, le_refl _, rfl⟩
  | cons tk ticks ih =>
      intro s s1 h
      obtain ⟨elapsed, dt, reads⟩ := tk
      rw [runUpdates] at h
      cases hu : s.update elapsed dt reads with
      | none => rw [hu] at h; exact absurd h (by simp)
      | some s2 =>
          rw [hu] at h
          have h1 := update_monitor s elapsed dt reads s2 hu
          have h2 := ih s2 s1 h
          exact ⟨h2.1.trans h1.1, h1.2.1.trans h2.2.1, h2.2.2.trans h1.2.2⟩

/-- One successful update preserves the equal-length invariant of the series. -/
lemma update_lengths (s : CpuMonitor α) (elapsed dt : α) (reads : List (Except String α))
    (s1 : CpuMonitor α) (h : s.update elapsed dt reads = some s1)
    (hall : allEqual (statsLengths s.stats)) : allEqual (statsLengths s1.stats) := by
  simp only [CpuMonitor.update] at h
  cases hu : updateCores elapsed s.stats reads (s.m.add_time dt) with
  | none => rw [hu] at h; exact absurd h (by simp)
  | some p =>
      obtain ⟨stats1, m2⟩ := p
      simp only [hu] at h
      have hl1 : statsLengths stats1 = (statsLengths s.stats).map (fun n => n + 1) :=
        updateCores_lengths elapsed s.stats reads _ stats1 m2 hu
      by_cases hscroll : m2.max_x < m2.time
      · rw [if_pos hscroll] at h
        cases hsc : scrollStep stats1 m2 with
        | none => rw [hsc] at h; exact absurd h (by simp)
        | some out =>
            obtain ⟨stats2, m3⟩ := out
            rw [hsc] at h
            simp only [Option.some.injEq] at h
            have hl2 : statsLengths stats2 = (statsLengths stats1).map (fun n => n - 1) :=
              scrollStep_lengths stats1 m2 (stats2, m3) hsc
            rw [← h]
            show allEqual (statsLengths stats2)
            rw [hl2, hl1]
            exact allEqual_map _ _ (allEqual_map _ _ hall)
      · rw [if_neg hscroll] at h
        simp only [Option.some.injEq] at h
        rw [← h]
        show allEqual (statsLengths stats1)
        rw [hl1]
        exact allEqual_map _ _ hall

/-- With the channel always open, the i-th send of the code's ticker loop
happens at `t + i * tick_rate`: the send precedes the sleep. -/
lemma tickerThread_open (r : α) :
    ∀ (fuel i : Nat) (t : α), tickerThread r (fun _ => true) fuel i t
      = (List.range fuel).map (fun k : Nat => t + (k : α) * r)
  | 0, _, _ => rfl
  | fuel + 1, i, t => by
      rw [tickerThread]
      simp only [if_true]
      rw [tickerThread_open r fuel (i + 1) (t + r)]
      rw [List.range_succ_eq_map, List.map_cons, List.map_map]
      congr 1
      · push_cast
        ring
      · refine List.map_congr_left fun k _ => ?_
        simp only [Function.comp_apply]
        push_cast
        ring

/-- When the j-th send fails because the channel is closed, the ticker thread
stops right there: only the first `min j fuel` sends happen. -/
lemma tickerThread_closed (r : α) (j : Nat) :
    ∀ (fuel i : Nat) (t : α), tickerThread r (fun k => decide (k < j)) fuel i t
      = (List.range (min (j - i) fuel)).map (fun k : Nat => t + (k : α) * r)
  | 0, i, t => by simp [tickerThread]
  | fuel + 1, i, t => by
      by_cases hij : i < j
      · rw [tickerThread]
        simp only [decide_eq_true hij, if_true]
        rw [tickerThread_closed r j fuel (i + 1) (t + r)]
        have hmin : min (j - i) (fuel + 1) = min (j - (i + 1)) fuel + 1 := by omega
        rw [hmin, List.range_succ_eq_map, List.map_cons, List.map_map]
        congr 1
        · push_cast
          ring
        · refine List.map_congr_left fun k _ => ?_
          simp only [Function.comp_apply]
          push_cast
          ring
      · rw [tickerThread]
        simp only [decide_eq_false hij, if_false]
        have hj : j - i = 0 := by omega
        simp [hj]

/-- C1: the claim (and the spec's stated policy) says a failing sub-metric
read during a `CpuMonitor` update tick yields an error result identifying the
sub-metric, with no sample appended and the render loop continuing.  The code
instead calls `unwrap` on the per-core read result (cpu.rs line 70, next to a
comment admitting the error is unhandled), so on the concrete failing input
below the whole update aborts — modelled as `none`: no error value is
returned and there is no loop left to continue.  The spec's section 9 calls
this unwrap a defect, so the code, not the claim, is wrong. -/
theorem c1_update_panics_on_failed_read :
    CpuMonitor.update (α := ℤ) ⟨[⟨"cpu0", ⟨[(0, 5)]⟩, 5⟩], ⟨0, 30, 100, 0, 0⟩⟩ 1 1
      [Except.error "read failed"] = none := rfl

/-- C2 counterexample: starting with no overlay, a failing tick stores "E";
the following tick succeeds, yet the draw after that success still shows "E"
and the pending overlay is still "E", not `none` — the claimed clearing of the
overlay on a successful update does not happen. -/
theorem c2_counterexample :
    single_widget_loop 'q' none
        [LoopEvent.tick (Except.error "E"), LoopEvent.tick (Except.ok ())]
      = ⟨[none, some "E", some "E"], some "E", false⟩ ∧
    (some "E" : Option String) ≠ none :=
  ⟨rfl, by simp⟩

/-- C2 (amended): on a `Tick` whose update fails the error message is stored
and shown by the very next draw while the loop goes on processing the
remaining events; on a `Tick` whose update succeeds the pending overlay is
left exactly as it was — it is never cleared. -/
theorem c2_error_overlay {K : Type} [DecidableEq K] (exit_key : K)
    (err_msg : Option String) (e : String) (rest : List (LoopEvent K)) :
    single_widget_loop exit_key err_msg (LoopEvent.tick (Except.error e) :: rest)
      = ⟨err_msg :: (single_widget_loop exit_key (some e) rest).draws,
         (single_widget_loop exit_key (some e) rest).err_msg,
         (single_widget_loop exit_key (some e) rest).terminated⟩ ∧
    (single_widget_loop exit_key (some e) rest).draws.head? = some (some e) ∧
    single_widget_loop exit_key err_msg (LoopEvent.tick (Except.ok ()) :: rest)
      = ⟨err_msg :: (single_widget_loop exit_key err_msg rest).draws,
         (single_widget_loop exit_key err_msg rest).err_msg,
         (single_widget_loop exit_key err_msg rest).terminated⟩ :=
  ⟨rfl, single_widget_loop_draws_head exit_key (some e) rest, rfl⟩

/-- C3: an `Input` carrying the exit key makes the loop break within that very
event-processing cycle — the trace ends after the draw that preceded the
event, with no further draws — while an `Input` with any other key changes
nothing: the overlay, the termination flag and the processing of the
remaining events are exactly as if the event had not occurred. -/
theorem c3_exit_key (K : Type) [DecidableEq K] (exit_key k : K)
    (err_msg : Option String) (rest : List (LoopEvent K)) (hk : k ≠ exit_key) :
    single_widget_loop exit_key err_msg (LoopEvent.input exit_key :: rest)
      = ⟨[err_msg], err_msg, true⟩ ∧
    single_widget_loop exit_key err_msg (LoopEvent.input k :: rest)
      = ⟨err_msg :: (single_widget_loop exit_key err_msg rest).draws,
         (single_widget_loop exit_key err_msg rest).err_msg,
         (single_widget_loop exit_key err_msg rest).terminated⟩ := by
  constructor
  · simp [single_widget_loop]
  · simp [single_widget_loop, hk]

/-- C3 witness: concrete runs with the default exit key q and another key. -/
theorem c3_witness :
    single_widget_loop 'q' none [LoopEvent.input 'q', LoopEvent.tick (Except.ok ())]
      = ⟨[none], none, true⟩ ∧
    single_widget_loop 'q' none [LoopEvent.input 'x', LoopEvent.tick (Except.ok ())]
      = ⟨[none, none, none], none, false⟩ := by
  have h := c3_exit_key Char 'q' 'x' none [LoopEvent.tick (Except.ok ())] (by decide)
  exact ⟨h.1, h.2.trans (by rfl)⟩

/-- C4 counterexample: with exit key q and key stream q, x the reader thread
sends only `Input q` and returns, while a producer that forwarded every key
with no exit-key interpretation of its own would send `Input q, Input x`. -/
theorem c4_counterexample :
    inputThread 'q' [some 'q', some 'x'] = [Event.Input 'q'] ∧
    inputThreadOfClaim [some 'q', some 'x'] = [Event.Input 'q', Event.Input 'x'] ∧
    inputThread 'q' [some 'q', some 'x'] ≠ inputThreadOfClaim [some 'q', some 'x'] :=
  ⟨rfl, rfl, by decide⟩

/-- C4 (amended): the reader thread forwards every successfully read key, in
order and unmodified, as long as the exit key has not appeared, and it
forwards the exit key itself as well — but immediately after forwarding it the
thread returns and reads no further keys, so the producer does interpret the
exit key (to self-terminate) in addition to the consumer. -/
theorem c4_forwards_keys (K : Type) [DecidableEq K] (exit_key : K)
    (reads rest : List (Option K)) (h : exit_key ∉ reads.filterMap id) :
    inputThread exit_key reads = inputThreadOfClaim reads ∧
    inputThread exit_key (reads ++ some exit_key :: rest)
      = inputThreadOfClaim reads ++ [Event.Input exit_key] := by
  induction reads with
  | nil =>
      refine ⟨rfl, ?_⟩
      show Event.Input exit_key ::
          (if exit_key = exit_key then [] else inputThread exit_key rest) = _
      rw [if_pos rfl]
      rfl
  | cons o reads ih =>
      cases o with
      | none =>
          have h1 : exit_key ∉ reads.filterMap id := h
          exact (ih h1)
      | some k =>
          have hk : ¬(k = exit_key) := by
            intro hkk
            subst hkk
            exact h (show k ∈ k :: reads.filterMap id from List.mem_cons_self _ _)
          have h1 : exit_key ∉ reads.filterMap id := by
            intro hm
            exact h (show exit_key ∈ k :: reads.filterMap id from List.mem_cons_of_mem _ hm)
          obtain ⟨ih1, ih2⟩ := ih h1
          constructor
          · show Event.Input k ::
                (if k = exit_key then [] else inputThread exit_key reads)
                = Event.Input k :: (reads.filterMap id).map Event.Input
            rw [if_neg hk, ih1]
            rfl
          · show Event.Input k ::
                (if k = exit_key then [] else inputThread exit_key (reads ++ some exit_key :: rest))
                = Event.Input k :: ((reads.filterMap id).map Event.Input ++ [Event.Input exit_key])
            rw [if_neg hk, ih2]
            rfl

/-- C4 witness: concrete key streams around the exit key q. -/
theorem c4_witness :
    inputThread 'q' [some 'a', none, some 'b'] = inputThreadOfClaim [some 'a', none, some 'b'] ∧
    inputThread 'q' ([some 'a', none, some 'b'] ++ some 'q' :: [some 'c'])
      = inputThreadOfClaim [some 'a', none, some 'b'] ++ [Event.Input 'q'] :=
  c4_forwards_keys Char 'q' [some 'a', none, some 'b'] [some 'c'] (by decide)

/-- C5 counterexample: with tick rate 1 and an always-open channel the first
two sends of the code's ticker happen at instants 0 and 1 — the very first
`Tick` is sent before any sleep — whereas the claimed sleep-first loop would
send at instants 1 and 2. -/
theorem c5_counterexample :
    tickerThread (α := ℤ) 1 (fun _ => true) 2 0 0 = [0, 1] ∧
    tickerThreadOfClaim (α := ℤ) 1 (fun _ => true) 2 0 0 = [1, 2] ∧
    tickerThread (α := ℤ) 1 (fun _ => true) 2 0 0
      ≠ tickerThreadOfClaim (α := ℤ) 1 (fun _ => true) 2 0 0 := by
  refine ⟨by decide, by decide, by decide⟩

/-- C5 (amended): every ticker iteration first sends `Tick` and then sleeps,
so with the channel open the i-th send happens at instant `i * tick_rate`, the
first one immediately at 0; and when the j-th send fails because the channel
is closed, the thread just stops — however much fuel remains, exactly the
first `min j fuel` sends happen and nothing else. -/
theorem c5_send_then_sleep (r : α) (fuel j : Nat) :
    tickerThread r (fun _ => true) fuel 0 0
      = (List.range fuel).map (fun k : Nat => (k : α) * r) ∧
    tickerThread r (fun k => decide (k < j)) fuel 0 0
      = (List.range (min j fuel)).map (fun k : Nat => (k : α) * r) := by
  constructor
  · rw [tickerThread_open]
    exact List.map_congr_left fun k _ => by rw [zero_add]
  · rw [tickerThread_closed]
    rw [Nat.sub_zero]
    exact List.map_congr_left fun k _ => by rw [zero_add]

/-- C6: across any sequence of successful update ticks, starting from any
widget state, `y_min` never increases and `y_max` never decreases — autoscale
only ever widens the y-range. -/
theorem c6_y_bounds_monotone (s : CpuMonitor α)
    (ticks : List (α × α × List (Except String α))) (s1 : CpuMonitor α)
    (h : runUpdates s ticks = some s1) :
    s1.m.y_min ≤ s.m.y_min ∧ s.m.y_max ≤ s1.m.y_max :=
  ⟨(runUpdates_monitor ticks s s1 h).1, (runUpdates_monitor ticks s s1 h).2.1⟩

/-- C6 witness: one concrete tick of `exampleCpu`. -/
theorem c6_witness :
    runUpdates exampleCpu [(1, 1, [Except.ok 5])] = some exampleCpu1 ∧
    exampleCpu1.m.y_min ≤ exampleCpu.m.y_min ∧
      exampleCpu.m.y_max ≤ exampleCpu1.m.y_max := by
  refine ⟨by decide, ?_, ?_⟩
  · exact (c6_y_bounds_monotone exampleCpu [(1, 1, [Except.ok 5])] exampleCpu1 (by decide)).1
  · exact (c6_y_bounds_monotone exampleCpu [(1, 1, [Except.ok 5])] exampleCpu1 (by decide)).2

/-- C7 counterexample: updating `exampleCpu` (whose `y_max` is 0) with reading
5 yields `y_max = 100005`, not `max 0 5 = 5`: the code widens the y-bounds
with `reading + 100000` (cpu.rs lines 72-73), not with the reading itself as
the claim states. -/
theorem c7_counterexample :
    CpuMonitor.update exampleCpu 1 1 [Except.ok 5] = some exampleCpu1 ∧
    exampleCpu1.m.y_max ≠ max exampleCpu.m.y_max 5 :=
  ⟨by decide, by decide⟩

/-- C7 (amended): for a sub-metric whose read succeeds with value `f`, the
per-core loop appends exactly `(elapsed, f)` — the reading itself, unmodified
— to that sub-metric's series and stores `f` as its current frequency, but the
monitor it passes on has both y-bounds widened with `f + 100000`, not with the
reading `f`. -/
theorem c7_append_reading (c : CoreStat α) (cs : List (CoreStat α)) (elapsed f : α)
    (rs : List (Except String α)) (m : Monitor α) (cs1 : List (CoreStat α)) (m1 : Monitor α)
    (h : updateCores elapsed (c :: cs) (Except.ok f :: rs) m = some (cs1, m1)) :
    cs1.head? = some { c with cur_freq := f, data := ⟨c.data.samples ++ [(elapsed, f)]⟩ } ∧
    updateCores elapsed cs rs ((m.set_if_y_max (f + 100000)).set_if_y_min (f + 100000))
      = some (cs1.tail, m1) := by
  rw [updateCores] at h
  simp only [CoreStat.update] at h
  cases hrec : updateCores elapsed cs rs
      ((m.set_if_y_max (f + 100000)).set_if_y_min (f + 100000)) with
  | none => rw [hrec] at h; exact absurd h (by simp)
  | some p =>
      obtain ⟨cs2, m2⟩ := p
      rw [hrec] at h
      simp only [Option.some.injEq, Prod.mk.injEq] at h
      obtain ⟨h1, h2⟩ := h
      subst h1
      subst h2
      exact ⟨rfl, rfl⟩

/-- C7 witness: the amended per-core step at a concrete input. -/
theorem c7_witness :
    (updateCores (α := ℤ) 1 [⟨"cpu0", ⟨[]⟩, 0⟩] [Except.ok 5] ⟨0, 30, 100, 0, 0⟩
      = some ([⟨"cpu0", ⟨[(1, 5)]⟩, 5⟩], ⟨0, 30, 100, 100005, 0⟩)) ∧
    ([⟨"cpu0", ⟨[(1, 5)]⟩, 5⟩] : List (CoreStat ℤ)).head? = some ⟨"cpu0", ⟨[(1, 5)]⟩, 5⟩ ∧
    updateCores (α := ℤ) 1 [] []
        (((⟨0, 30, 100, 0, 0⟩ : Monitor ℤ).set_if_y_max (5 + 100000)).set_if_y_min (5 + 100000))
      = some ([], ⟨0, 30, 100, 100005, 0⟩) := by
  have h := c7_append_reading (α := ℤ) ⟨"cpu0", ⟨[]⟩, 0⟩ [] 1 5 [] ⟨0, 30, 100, 0, 0⟩
      [⟨"cpu0", ⟨[(1, 5)]⟩, 5⟩] ⟨0, 30, 100, 100005, 0⟩ (by decide)
  exact ⟨by decide, h.1, h.2⟩

/-- C8: a scroll step removes exactly one sample (k = 1) from the reference
series and exactly one from every other tracked series — the list of series
lengths drops pointwise by one — so equal lengths stay equal; and every
successful update preserves the equal-length invariant. -/
theorem c8_coordinated_eviction :
    (∀ (stats : List (CoreStat α)) (m : Monitor α) (out : List (CoreStat α) × Monitor α),
        scrollStep stats m = some out → allEqual (statsLengths stats) →
        statsLengths out.1 = (statsLengths stats).map (fun n => n - 1) ∧
          allEqual (statsLengths out.1)) ∧
    (∀ (s : CpuMonitor α) (elapsed dt : α) (reads : List (Except String α))
        (s1 : CpuMonitor α), s.update elapsed dt reads = some s1 →
        allEqual (statsLengths s.stats) → allEqual (statsLengths s1.stats)) := by
  constructor
  · intro stats m out h hall
    have hl := scrollStep_lengths stats m out h
    exact ⟨hl, hl ▸ allEqual_map _ _ hall⟩
  · intro s elapsed dt reads s1 h hall
    exact update_lengths s elapsed dt reads s1 h hall

/-- C8 witness: the concrete scroll of `exampleStats` and a concrete update. -/
theorem c8_witness :
    (statsLengths exampleStatsScrolled = (statsLengths exampleStats).map (fun n => n - 1) ∧
      allEqual (statsLengths exampleStatsScrolled)) ∧
    allEqual (statsLengths exampleCpu1.stats) := by
  constructor
  · exact (c8_coordinated_eviction (α := ℤ)).1 exampleStats exampleMonitor
      (exampleStatsScrolled, ⟨1, 30, 0, 10, 31⟩) (by decide) (by decide)
  · exact (c8_coordinated_eviction (α := ℤ)).2 exampleCpu 1 1 [Except.ok 5] exampleCpu1
      (by decide) (by decide)

/-- C9: across any successful run of update ticks the window width never
changes, and a scroll step that leaves a new earliest sample advances
`x_offset` by exactly the time gap between the evicted sample and that new
earliest sample, leaving the width untouched. -/
theorem c9_x_window_constancy :
    (∀ (s : CpuMonitor α) (ticks : List (α × α × List (Except String α)))
        (s1 : CpuMonitor α), runUpdates s ticks = some s1 →
        s1.m.x_window_width = s.m.x_window_width) ∧
    (∀ (s0 : CoreStat α) (rest : List (CoreStat α)) (m : Monitor α)
        (out : List (CoreStat α) × Monitor α) (removed point : α × α)
        (more : List (α × α)),
        s0.data.samples = removed :: point :: more →
        scrollStep (s0 :: rest) m = some out →
        out.2.x_offset = m.x_offset + (point.1 - removed.1) ∧
          out.2.x_window_width = m.x_window_width) := by
  constructor
  · intro s ticks s1 h
    exact (runUpdates_monitor ticks s s1 h).2.2
  · intro s0 rest m out removed point more hs h
    rw [scrollStep] at h
    have hp : s0.data.pop = some (removed, ⟨point :: more⟩) := by
      simp [DataSeries.pop, hs]
    simp only [hp] at h
    have hf : (⟨point :: more⟩ : DataSeries α).first = some point := rfl
    simp only [hf, Option.some.injEq] at h
    rw [← h]
    exact ⟨rfl, rfl⟩

/-- C9 witness: one concrete tick and one concrete scroll. -/
theorem c9_witness :
    exampleCpu1.m.x_window_width = exampleCpu.m.x_window_width ∧
    ((⟨1, 30, 0, 10, 31⟩ : Monitor ℤ).x_offset = exampleMonitor.x_offset + (1 - 0) ∧
      (⟨1, 30, 0, 10, 31⟩ : Monitor ℤ).x_window_width = exampleMonitor.x_window_width) := by
  constructor
  · exact (c9_x_window_constancy (α := ℤ)).1 exampleCpu [(1, 1, [Except.ok 5])]
      exampleCpu1 (by decide)
  · exact (c9_x_window_constancy (α := ℤ)).2 ⟨"cpu0", ⟨[(0, 1), (1, 2)]⟩, 2⟩
      [⟨"cpu1", ⟨[(0, 3), (1, 4)]⟩, 4⟩] exampleMonitor
      (exampleStatsScrolled, ⟨1, 30, 0, 10, 31⟩) (0, 1) (1, 2) [] rfl (by decide)

/-- C10: when the reference series holds exactly one sample, the scroll step
pops it, `first()` then finds no new earliest sample, and the monitor — in
particular `x_offset` — is left completely unchanged for that step, while one
oldest sample is still popped from every other tracked series. -/
theorem c10_no_shift_on_emptied_reference (s0 : CoreStat α) (rest : List (CoreStat α))
    (m : Monitor α) (removed : α × α) (hs : s0.data.samples = [removed]) :
    scrollStep (s0 :: rest) m
      = some ({ s0 with data := ⟨[]⟩ } ::
          rest.map (fun c => { c with data := c.data.popDiscard }), m) := by
  rw [scrollStep]
  have hp : s0.data.pop = some (removed, ⟨[]⟩) := by simp [DataSeries.pop, hs]
  simp only [hp]
  rfl

/-- C10 witness: a one-sample reference next to a two-sample series. -/
theorem c10_witness :
    scrollStep (α := ℤ) [⟨"cpu0", ⟨[(5, 7)]⟩, 7⟩, ⟨"cpu1", ⟨[(4, 1), (5, 2)]⟩, 2⟩]
        ⟨0, 30, 0, 10, 31⟩
      = some ([⟨"cpu0", ⟨[]⟩, 7⟩, ⟨"cpu1", ⟨[(5, 2)]⟩, 2⟩], ⟨0, 30, 0, 10, 31⟩) := by
  have h := c10_no_shift_on_emptied_reference (α := ℤ) ⟨"cpu0", ⟨[(5, 7)]⟩, 7⟩
      [⟨"cpu1", ⟨[(4, 1), (5, 2)]⟩, 2⟩] ⟨0, 30, 0, 10, 31⟩ (5, 7) rfl
  exact h

end RsysCli
